import Mathlib

/-!
Verification of the locking-center Go client (`mutex/mutex.go`).

The wire codec is embedded as pure Lean functions over byte lists
(bytes are `Nat` values `< 256`; the two's-complement byte written by
Go's `binary.Write` for an `int8(n)` conversion is `n % 256`).  The
blocking retry engine is embedded as a deterministic loop over an
explicit list of per-attempt world outcomes (connection result, write
result, response byte).
-/

/-- The `mutexAction` byte enumeration of the Go source. -/
inductive MutexAction
  | maLock
  | maUnlock
  | maResetByKey
  | maResetBySource
deriving DecidableEq, Repr

/-- The wire code of each action (`maLock = 1`, ..., `maResetBySource = 4`). -/
def actionCode : MutexAction → Nat
  | .maLock => 1
  | .maUnlock => 2
  | .maResetByKey => 3
  | .maResetBySource => 4

/-- `var queueRetryDuration = time.Millisecond * 500`, in milliseconds. -/
def queueRetryDuration : Nat := 500

/-- Reinterpretation of a byte (`0 ≤ b < 256`) as a signed 8-bit integer,
as Go does when converting between `int8` and its wire byte. -/
def int8OfByte (b : Nat) : Int :=
  if b < 128 then (b : Int) else (b : Int) - 256

/-- `preparePackage` of `mutex.go`: validates the key and serialises
`(action, key, sourceAddr)` into the request frame.  The key and the
optional source address are byte lists (Go strings are byte strings
here); length bytes are the `int8` conversions of the Go source,
i.e. `len % 256` on the wire. -/
def preparePackage (action : MutexAction) (key : List Nat)
    (sourceAddr : Option (List Nat)) : Except String (List Nat) :=
  if (action ≠ .maResetBySource ∧ key.length = 0) ∨ 128 < key.length then
    .error "key can not be empty or more than 128 characters"
  else
    let buffer : List Nat := []
    let buffer := buffer ++ [actionCode action]
    let buffer :=
      match action with
      | .maLock | .maUnlock | .maResetByKey =>
        let keySize := key.length % 256
        buffer ++ [keySize] ++ key
      | .maResetBySource => buffer
    let buffer :=
      match action with
      | .maLock | .maResetBySource =>
        let sourceAddrSize :=
          match sourceAddr with
          | none => 0
          | some s => s.length % 256
        let buffer := buffer ++ [sourceAddrSize]
        match sourceAddr with
        | none => buffer
        | some s => buffer ++ s
      | .maUnlock | .maResetByKey => buffer
    .ok buffer

/-- `result` of `mutex.go`: reads one response byte (`none` models a read
failure or a stream closed before one byte arrived) and acknowledges only
the ASCII `+` byte. -/
def result (r : Option Nat) : Bool :=
  match r with
  | none => false
  | some b => b == 0x2B

/-- Which actions require a key: all except `maResetBySource`
(the guard `action != maResetBySource` of `preparePackage`). -/
def requiresKey : MutexAction → Bool
  | .maResetBySource => false
  | _ => true

/-- The source-address field of the §6 table: one length byte
(0 when absent) followed by the raw source bytes when present. -/
def srcField : Option (List Nat) → List Nat
  | none => [0]
  | some s => [s.length % 256] ++ s

/-- The frame layout table of §6 of the spec, written from the spec's
words: action code, then the key field for the key-carrying actions,
then the source field for Lock and ResetBySource. -/
def specFrame (action : MutexAction) (key : List Nat)
    (sourceAddr : Option (List Nat)) : List Nat :=
  match action with
  | .maLock => [1] ++ [key.length % 256] ++ key ++ srcField sourceAddr
  | .maUnlock => [2] ++ [key.length % 256] ++ key
  | .maResetByKey => [3] ++ [key.length % 256] ++ key
  | .maResetBySource => [4] ++ srcField sourceAddr

/-- Reads one length-prefixed chunk of a frame: a length byte `n`
followed by `n` payload bytes; fails when fewer than `n` bytes remain. -/
def readChunk : List Nat → Option (List Nat × List Nat)
  | [] => none
  | n :: rest => if n ≤ rest.length then some (rest.take n, rest.drop n) else none

/-- Modelled from the spec: the repository ships no frame decoder (the
server consumes the frames), so this decoder is written from the §6
layout table and §9 ("length 0 means absent").  It recovers the action
from the code byte, the key field for the key-carrying actions, and the
source field for Lock and ResetBySource, requiring the frame to be
consumed exactly. -/
def decodeFrame (bs : List Nat) :
    Option (MutexAction × List Nat × Option (List Nat)) :=
  match bs with
  | 1 :: rest =>
    match readChunk rest with
    | some (key, rest2) =>
      match readChunk rest2 with
      | some (src, rest3) =>
        if rest3 = [] then
          some (.maLock, key, if src = [] then none else some src)
        else none
      | none => none
    | none => none
  | 2 :: rest =>
    match readChunk rest with
    | some (key, rest2) =>
      if rest2 = [] then some (.maUnlock, key, none) else none
    | none => none
  | 3 :: rest =>
    match readChunk rest with
    | some (key, rest2) =>
      if rest2 = [] then some (.maResetByKey, key, none) else none
    | none => none
  | 4 :: rest =>
    match readChunk rest with
    | some (src, rest2) =>
      if rest2 = [] then
        some (.maResetBySource, [], if src = [] then none else some src)
      else none
    | none => none
  | _ => none

/-- What the transport does after a successful `net.DialTCP`: the write
can fail, or the write succeeds and the connection yields at most one
response byte (`none` models a read failure or early close). -/
inductive TransportOutcome
  | writeFail
  | response (b : Option Nat)
deriving DecidableEq, Repr

/-- The world outcome of one iteration of an operation's retry closure:
either `net.DialTCP` fails, or it succeeds and the connection behaves
as the given `TransportOutcome`. -/
inductive AttemptOutcome
  | connectFail
  | conn (t : TransportOutcome)
deriving DecidableEq, Repr

/-- `query` of `mutex.go`: encode the request (propagating the encoding
error), write it (propagating a write failure), then read and decode the
acknowledgment, turning a negative one into the remote-execution error. -/
def query (action : MutexAction) (key : List Nat)
    (sourceAddr : Option (List Nat)) (t : TransportOutcome) :
    Except String Unit :=
  match preparePackage action key sourceAddr with
  | .error e => .error e
  | .ok _ =>
    match t with
    | .writeFail => .error "write failure"
    | .response b =>
      if result b then .ok () else .error "remote server execution error"

/-- One iteration of the retry closure shared by `Lock`, `Unlock`,
`ResetByKey` and `ResetBySource`: a failed dial logs and yields `false`;
otherwise any error from `query` logs and yields `false`; a positive
acknowledgment yields `true`. -/
def opAttempt (action : MutexAction) (key : List Nat)
    (sourceAddr : Option (List Nat)) : AttemptOutcome → Bool
  | .connectFail => false
  | .conn t =>
    match query action key sourceAddr t with
    | .error _ => false
    | .ok _ => true

/-- The `for !query() { time.Sleep(queueRetryDuration) }` loop, run
against a list of world outcomes, one per attempt.  On termination it
returns the number of attempts performed, the list of sleep durations
(one sleep after every failed attempt), and the unconsumed world;
`none` means the loop is still retrying when the outcomes run out. -/
def runRetry (f : AttemptOutcome → Bool) :
    List AttemptOutcome → Option (Nat × List Nat × List AttemptOutcome)
  | [] => none
  | w :: ws =>
    if f w then some (1, [], ws)
    else
      match runRetry f ws with
      | none => none
      | some (n, sleeps, rest) =>
        some (n + 1, queueRetryDuration :: sleeps, rest)

/-- The number of attempts (each one a fresh `net.DialTCP`) the retry
loop performs while consuming the given world outcomes: it stops at the
first successful attempt, otherwise it uses every outcome and keeps
waiting for more. -/
def attemptsWithin (f : AttemptOutcome → Bool) : List AttemptOutcome → Nat
  | [] => 0
  | w :: ws => if f w then 1 else attemptsWithin f ws + 1

/-- The failure outcomes of §7's transient class: connection failure,
write failure, read failure, or a negative acknowledgment. -/
def isTransportFailure : AttemptOutcome → Bool
  | .connectFail => true
  | .conn .writeFail => true
  | .conn (.response none) => true
  | .conn (.response (some b)) => !(b == 0x2B)

/-- Observable milestones of a `Wait` call: entering and returning from
the inner `Lock`, and entering and returning from the deferred `Unlock`. -/
inductive WEvent
  | lockBegin
  | lockEnd
  | unlockBegin
  | unlockEnd
deriving DecidableEq, Repr

/-- `Wait` of `mutex.go`: `l.Lock(key, nil)` followed by the deferred
`l.Unlock(key)`, as the sequence of milestones reached when the world
behaves as `ws`.  A phase whose retry loop exhausts the world blocks
there, producing no further events. -/
def WaitEvents (key : List Nat) (ws : List AttemptOutcome) : List WEvent :=
  match runRetry (opAttempt .maLock key none) ws with
  | none => [.lockBegin]
  | some (_, _, rest) =>
    match runRetry (opAttempt .maUnlock key none) rest with
    | none => [.lockBegin, .lockEnd, .unlockBegin]
    | some _ => [.lockBegin, .lockEnd, .unlockBegin, .unlockEnd]

/-- On validated inputs the byte-by-byte construction of
`preparePackage` produces exactly the §6 frame table. -/
theorem preparePackage_eq_specFrame (a : MutexAction) (key : List Nat)
    (src : Option (List Nat)) (h1 : requiresKey a = true → key ≠ [])
    (h2 : key.length ≤ 128) :
    preparePackage a key src = .ok (specFrame a key src) := by
  cases a <;> cases src <;>
    simp [preparePackage, specFrame, srcField, actionCode] <;>
    first
      | exact ⟨h1 rfl, h2⟩
      | exact h2

/-- A key-requiring action with an empty or over-long key trips the
validation guard of `preparePackage`. -/
theorem preparePackage_error_of_badKey (a : MutexAction) (key : List Nat)
    (src : Option (List Nat)) (ha : requiresKey a = true)
    (hk : key = [] ∨ 128 < key.length) :
    preparePackage a key src =
      .error "key can not be empty or more than 128 characters" := by
  have hne : a ≠ .maResetBySource := by
    cases a <;> simp_all [requiresKey]
  have hg : (a ≠ .maResetBySource ∧ key.length = 0) ∨ 128 < key.length := by
    rcases hk with hk | hk
    · exact Or.inl ⟨hne, by simp [hk]⟩
    · exact Or.inr hk
  unfold preparePackage
  rw [if_pos hg]

/-- When encoding fails, every iteration of the retry closure returns
`false`, whatever the transport does. -/
theorem opAttempt_false_of_encodeError (a : MutexAction) (key : List Nat)
    (src : Option (List Nat)) (e : String)
    (h : preparePackage a key src = .error e) (w : AttemptOutcome) :
    opAttempt a key src w = false := by
  cases w with
  | connectFail => rfl
  | conn t => cases t <;> simp [opAttempt, query, h]

/-- When encoding succeeds, one iteration of the retry closure succeeds
exactly when the world is not one of §7's transient failures. -/
theorem opAttempt_eq_not_isTransportFailure (a : MutexAction)
    (key : List Nat) (src : Option (List Nat)) (bs : List Nat)
    (h : preparePackage a key src = .ok bs) (w : AttemptOutcome) :
    opAttempt a key src w = !(isTransportFailure w) := by
  cases w with
  | connectFail => rfl
  | conn t =>
    cases t with
    | writeFail => simp [opAttempt, query, h, isTransportFailure]
    | response b =>
      cases b with
      | none => simp [opAttempt, query, h, isTransportFailure, result]
      | some v =>
        by_cases hv : v = 43 <;>
          simp [opAttempt, query, h, isTransportFailure, result, hv]

/-- A closure that always fails keeps the retry loop spinning: the loop
never terminates and performs one attempt per available world outcome. -/
theorem runRetry_none_of_false (f : AttemptOutcome → Bool)
    (hf : ∀ w, f w = false) (ws : List AttemptOutcome) :
    runRetry f ws = none ∧ attemptsWithin f ws = ws.length := by
  induction ws with
  | nil => simp [runRetry, attemptsWithin]
  | cons w ws ih => simp [runRetry, attemptsWithin, hf w, ih.1, ih.2]

/-- The retry loop stops at the first successful attempt: after `n`
failures and one success it reports `n + 1` attempts with `n` sleeps of
the configured duration, leaving the rest of the world unconsumed. -/
theorem runRetry_firstSuccess (f : AttemptOutcome → Bool)
    (ws1 ws2 : List AttemptOutcome) (w : AttemptOutcome)
    (hf : ∀ x ∈ ws1, f x = false) (hw : f w = true) :
    runRetry f (ws1 ++ w :: ws2) =
      some (ws1.length + 1, List.replicate ws1.length queueRetryDuration,
        ws2) := by
  induction ws1 with
  | nil => simp [runRetry, hw]
  | cons x xs ih =>
    have hx : f x = false := hf x (by simp)
    have hxs : ∀ y ∈ xs, f y = false := fun y hy => hf y (by simp [hy])
    simp [runRetry, hx, ih hxs, List.replicate_succ]

/-- Claim C4: on every valid input, `preparePackage` produces exactly the §6
frame: the action-code byte; then, for Lock, Unlock and ResetByKey, the
key-length byte and the raw key; then, for Lock and ResetBySource, the
source-length byte (0 when absent) and the raw source when present. -/
theorem c4_encode_matches_frame_table (a : MutexAction) (key : List Nat)
    (src : Option (List Nat)) (h1 : requiresKey a = true → key ≠ [])
    (h2 : key.length ≤ 128) :
    preparePackage a key src = .ok (specFrame a key src) :=
  preparePackage_eq_specFrame a key src h1 h2

/-- Witness for C4 at a concrete Lock request with a present source. -/
theorem c4_encode_matches_frame_table_witness :
    preparePackage .maLock [107] (some [115]) =
      .ok (specFrame .maLock [107] (some [115])) ∧
    specFrame .maLock [107] (some [115]) = [1, 1, 107, 1, 115] :=
  ⟨c4_encode_matches_frame_table .maLock [107] (some [115])
    (fun _ => by decide) (by decide), by decide⟩

/-- Claim C3: for the key-requiring actions an empty or over-128-byte key is
rejected with the invalid-key error and no bytes are produced, while
`maResetBySource` succeeds with an empty key. -/
theorem c3_key_validation (a : MutexAction) (key : List Nat)
    (src : Option (List Nat))
    (ha : a = .maLock ∨ a = .maUnlock ∨ a = .maResetByKey)
    (hk : key = [] ∨ 128 < key.length) :
    preparePackage a key src =
      .error "key can not be empty or more than 128 characters" ∧
    ∀ src2 : Option (List Nat),
      ∃ bs, preparePackage .maResetBySource [] src2 = .ok bs := by
  constructor
  · have ha' : requiresKey a = true := by
      rcases ha with h | h | h <;> subst h <;> rfl
    exact preparePackage_error_of_badKey a key src ha' hk
  · intro src2
    exact ⟨specFrame .maResetBySource [] src2,
      preparePackage_eq_specFrame .maResetBySource [] src2
        (by simp [requiresKey]) (by simp)⟩

/-- Witness for C3 at `maLock` with the empty key. -/
theorem c3_key_validation_witness :
    preparePackage .maLock [] none =
      .error "key can not be empty or more than 128 characters" ∧
    ∀ src2 : Option (List Nat),
      ∃ bs, preparePackage .maResetBySource [] src2 = .ok bs :=
  c3_key_validation .maLock [] none (Or.inl rfl) (Or.inl rfl)

/-- Claim C5: the acknowledgment decoder returns `true` exactly on the single
byte `0x2B` (ASCII `+`); any other byte, or the absence of a byte,
yields `false`. -/
theorem c5_ack_decoding : ∀ r : Option Nat, result r = decide (r = some 0x2B) := by
  intro r
  cases r with
  | none => simp [result]
  | some v => by_cases hv : v = 43 <;> simp [result, hv]

/-- Claim C9: for Lock and ResetBySource, a `nil` source pointer and a present
empty source string encode to byte-for-byte the same frame, whose last
byte is the source-length byte 0. -/
theorem c9_nil_source_eq_empty_source (a : MutexAction) (key : List Nat)
    (ha : a = .maLock ∨ a = .maResetBySource)
    (h1 : requiresKey a = true → key ≠ []) (h2 : key.length ≤ 128) :
    preparePackage a key none = preparePackage a key (some []) ∧
    ∃ bs, preparePackage a key none = .ok (bs ++ [0]) := by
  have hnone := preparePackage_eq_specFrame a key none h1 h2
  have hsome := preparePackage_eq_specFrame a key (some []) h1 h2
  rcases ha with h | h <;> subst h
  · refine ⟨?_, [1, key.length % 256] ++ key, ?_⟩ <;>
      simp [hnone, hsome, specFrame, srcField]
  · refine ⟨?_, [4], ?_⟩ <;> simp [hnone, hsome, specFrame, srcField]

/-- Witness for C9 at a concrete Lock request. -/
theorem c9_nil_source_eq_empty_source_witness :
    preparePackage .maLock [107] none = preparePackage .maLock [107] (some []) ∧
    ∃ bs, preparePackage .maLock [107] none = .ok (bs ++ [0]) :=
  c9_nil_source_eq_empty_source .maLock [107] (Or.inl rfl)
    (fun _ => by decide) (by decide)

/-- Counterexample to C2: a 128-byte key is accepted by the validation
(`len(key) > 128` is false), yet its length byte is `0x80 = 128`, which
reinterpreted as a signed 8-bit integer is `-128`, a negative value. -/
theorem c2_counterexample_key128 :
    preparePackage .maLock (List.replicate 128 97) none =
      .ok (1 :: 128 :: (List.replicate 128 97 ++ [0])) ∧
    int8OfByte 128 = -128 ∧ int8OfByte 128 < 0 := by
  refine ⟨?_, by decide, by decide⟩
  have h := preparePackage_eq_specFrame .maLock (List.replicate 128 97) none
    (fun _ => by simp) (by simp)
  simpa [specFrame, srcField] using h

/-- Claim C2 amended: every accepted key yields the length byte
`len % 256`; for lengths 1 through 127 that byte is non-negative as a
signed 8-bit integer, while at the accepted boundary length 128 it
reinterprets to `-128`. -/
theorem c2_length_byte_sign (a : MutexAction) (key : List Nat)
    (src : Option (List Nat)) (ha : requiresKey a = true)
    (h1 : key ≠ []) (h2 : key.length ≤ 128) :
    ∃ rest, preparePackage a key src =
        .ok (actionCode a :: key.length % 256 :: rest) ∧
      (key.length ≤ 127 → 0 ≤ int8OfByte (key.length % 256)) ∧
      (key.length = 128 → int8OfByte (key.length % 256) = -128) := by
  have hm : key.length % 256 = key.length := Nat.mod_eq_of_lt (by omega)
  have henc := preparePackage_eq_specFrame a key src (fun _ => h1) h2
  have hsign1 : key.length ≤ 127 → 0 ≤ int8OfByte (key.length % 256) := by
    intro hlt
    rw [hm]
    simp only [int8OfByte, if_pos (by omega : key.length < 128)]
    omega
  have hsign2 : key.length = 128 → int8OfByte (key.length % 256) = -128 := by
    intro h128
    rw [hm, h128]
    simp [int8OfByte]
  cases a with
  | maLock =>
    exact ⟨key ++ srcField src,
      by simpa [specFrame, actionCode] using henc, hsign1, hsign2⟩
  | maUnlock =>
    exact ⟨key, by simpa [specFrame, actionCode] using henc, hsign1, hsign2⟩
  | maResetByKey =>
    exact ⟨key, by simpa [specFrame, actionCode] using henc, hsign1, hsign2⟩
  | maResetBySource => exact absurd ha (by decide)

/-- Witness for the amended C2 at a one-byte key. -/
theorem c2_length_byte_sign_witness :
    ∃ rest, preparePackage .maUnlock [97] none =
        .ok (actionCode .maUnlock :: [97].length % 256 :: rest) ∧
      ([97].length ≤ 127 → 0 ≤ int8OfByte ([97].length % 256)) ∧
      ([97].length = 128 → int8OfByte ([97].length % 256) = -128) :=
  c2_length_byte_sign .maUnlock [97] none rfl (by decide) (by decide)

/-- Claim C10: the source address is never length-validated: any source longer
than 127 bytes still encodes, its length byte is the length truncated to
8 bits, and for lengths 128 through 255 that byte reinterprets to a
negative signed 8-bit integer. -/
theorem c10_source_length_unchecked (key src : List Nat)
    (h1 : key ≠ []) (h2 : key.length ≤ 128) (hs : 127 < src.length) :
    preparePackage .maLock key (some src) =
      .ok ([1] ++ [key.length % 256] ++ key ++ [src.length % 256] ++ src) ∧
    preparePackage .maResetBySource [] (some src) =
      .ok ([4] ++ [src.length % 256] ++ src) ∧
    (src.length ≤ 255 → int8OfByte (src.length % 256) < 0) := by
  refine ⟨?_, ?_, ?_⟩
  · have := preparePackage_eq_specFrame .maLock key (some src)
      (fun _ => h1) h2
    simpa [specFrame, srcField] using this
  · have := preparePackage_eq_specFrame .maResetBySource [] (some src)
      (by simp [requiresKey]) (by simp)
    simpa [specFrame, srcField] using this
  · intro h255
    have hm : src.length % 256 = src.length := Nat.mod_eq_of_lt (by omega)
    rw [hm]
    simp only [int8OfByte, if_neg (by omega : ¬ src.length < 128)]
    omega

/-- Witness for C10 at a 128-byte source address. -/
theorem c10_source_length_unchecked_witness :
    preparePackage .maLock [107] (some (List.replicate 128 115)) =
      .ok ([1] ++ [[107].length % 256] ++ [107] ++
        [(List.replicate 128 115).length % 256] ++ List.replicate 128 115) ∧
    preparePackage .maResetBySource [] (some (List.replicate 128 115)) =
      .ok ([4] ++ [(List.replicate 128 115).length % 256] ++
        List.replicate 128 115) ∧
    ((List.replicate 128 115).length ≤ 255 →
      int8OfByte ((List.replicate 128 115).length % 256) < 0) :=
  c10_source_length_unchecked [107] (List.replicate 128 115)
    (by decide) (by decide) (by simp)

/-- Counterexample to C1: with the empty key (an encoding failure),
`Lock`'s loop performs attempt after attempt — here 2 attempts against a
world that would acknowledge each one — and never terminates, instead of
propagating a terminal error without retrying. -/
theorem c1_counterexample_empty_key_retried :
    preparePackage .maLock [] none =
      .error "key can not be empty or more than 128 characters" ∧
    runRetry (opAttempt .maLock [] none)
      [.conn (.response (some 0x2B)), .conn (.response (some 0x2B))] = none ∧
    attemptsWithin (opAttempt .maLock [] none)
      [.conn (.response (some 0x2B)), .conn (.response (some 0x2B))] = 2 :=
  ⟨rfl, rfl, rfl⟩

/-- Claim C1 amended: an operation on a key-requiring action with a malformed
key never returns: the encoding error only makes each attempt fail, so
the retry loop spins forever, one fresh attempt per world outcome, and
no error ever reaches the caller (the operations return nothing). -/
theorem c1_encoding_error_retried_forever (a : MutexAction)
    (key : List Nat) (src : Option (List Nat)) (ws : List AttemptOutcome)
    (ha : requiresKey a = true) (hk : key = [] ∨ 128 < key.length) :
    runRetry (opAttempt a key src) ws = none ∧
    attemptsWithin (opAttempt a key src) ws = ws.length := by
  have herr := preparePackage_error_of_badKey a key src ha hk
  have hfalse : ∀ w, opAttempt a key src w = false := fun w =>
    opAttempt_false_of_encodeError a key src _ herr w
  exact runRetry_none_of_false _ hfalse ws

/-- Witness for the amended C1 at `Unlock` with a 129-byte key. -/
theorem c1_encoding_error_retried_forever_witness :
    runRetry (opAttempt .maUnlock (List.replicate 129 97) none)
      [.connectFail, .conn (.response (some 0x2B))] = none ∧
    attemptsWithin (opAttempt .maUnlock (List.replicate 129 97) none)
      [.connectFail, .conn (.response (some 0x2B))] = 2 := by
  have h := c1_encoding_error_retried_forever .maUnlock
    (List.replicate 129 97) none
    [.connectFail, .conn (.response (some 0x2B))] rfl (Or.inr (by simp))
  simpa using h

/-- Claim C6: when the first `N` world outcomes are transient failures and the
next one delivers the `+` acknowledgment, `Lock` performs exactly `N + 1`
connection attempts with one `queueRetryDuration` sleep between
consecutive attempts, then returns leaving the rest of the world
untouched. -/
theorem c6_lock_retries_until_ack (key : List Nat)
    (src : Option (List Nat)) (ws1 ws2 : List AttemptOutcome)
    (h1 : key ≠ []) (h2 : key.length ≤ 128)
    (hfail : ∀ w ∈ ws1, isTransportFailure w = true) :
    runRetry (opAttempt .maLock key src)
      (ws1 ++ AttemptOutcome.conn (.response (some 0x2B)) :: ws2) =
      some (ws1.length + 1,
        List.replicate ws1.length queueRetryDuration, ws2) := by
  have henc := preparePackage_eq_specFrame .maLock key src (fun _ => h1) h2
  have hop := opAttempt_eq_not_isTransportFailure .maLock key src _ henc
  apply runRetry_firstSuccess
  · intro x hx
    rw [hop x, hfail x hx]
    rfl
  · rw [hop _]
    rfl

/-- Witness for C6: four distinct transient failures then the
acknowledgment give five attempts and four 500 ms sleeps. -/
theorem c6_lock_retries_until_ack_witness :
    runRetry (opAttempt .maLock [97] none)
      [.connectFail, .conn .writeFail, .conn (.response none),
        .conn (.response (some 45)), .conn (.response (some 0x2B))] =
      some (5, [500, 500, 500, 500], []) := by
  have h := c6_lock_retries_until_ack [97] none
    [.connectFail, .conn .writeFail, .conn (.response none),
      .conn (.response (some 45))] [] (by decide) (by decide) (by decide)
  exact h.trans (by decide)

/-- Claim C7: decoding the frame of `encode(Lock, key, none)` by the §6 layout
recovers the Lock action, the same key and an absent source, for every
key the encoder accepts. -/
theorem c7_lock_roundtrip (key : List Nat) (h1 : key ≠ [])
    (h2 : key.length ≤ 128) :
    ∃ bs, preparePackage .maLock key none = .ok bs ∧
      decodeFrame bs = some (.maLock, key, none) := by
  refine ⟨1 :: key.length % 256 :: (key ++ [0]), ?_, ?_⟩
  · have h := preparePackage_eq_specFrame .maLock key none (fun _ => h1) h2
    simpa [specFrame, srcField] using h
  · have hm : key.length % 256 = key.length := Nat.mod_eq_of_lt (by omega)
    have hlen : key.length ≤ (key ++ [0]).length := by simp
    have htake : (key ++ [0]).take key.length = key := List.take_left key [0]
    have hdrop : (key ++ [0]).drop key.length = [0] := List.drop_left key [0]
    rw [hm]
    simp [decodeFrame, readChunk, hlen, htake, hdrop]

/-- Witness for C7 at a one-byte key. -/
theorem c7_lock_roundtrip_witness :
    ∃ bs, preparePackage .maLock [107] none = .ok bs ∧
      decodeFrame bs = some (.maLock, [107], none) :=
  c7_lock_roundtrip [107] (by decide) (by decide)

/-- Claim C8: whenever the inner `Lock` phase of `Wait` terminates, the `Wait`
run contains exactly one Lock invocation and exactly one Unlock
invocation, and the Unlock begins only after the Lock has succeeded. -/
theorem c8_wait_lock_then_unlock (key : List Nat)
    (ws : List AttemptOutcome)
    (h : (runRetry (opAttempt .maLock key none) ws).isSome = true) :
    (WaitEvents key ws).count .lockBegin = 1 ∧
    (WaitEvents key ws).count .unlockBegin = 1 ∧
    ∃ tail, WaitEvents key ws =
      [.lockBegin, .lockEnd, .unlockBegin] ++ tail := by
  obtain ⟨p, hp⟩ := Option.isSome_iff_exists.mp h
  obtain ⟨n, sleeps, rest⟩ := p
  unfold WaitEvents
  rw [hp]
  cases hr : runRetry (opAttempt .maUnlock key none) rest <;>
    simp only [hr] <;>
    first
      | exact ⟨by decide, by decide, [], rfl⟩
      | exact ⟨by decide, by decide, [.unlockEnd], rfl⟩

/-- Witness for C8 at a world acknowledging both phases immediately. -/
theorem c8_wait_lock_then_unlock_witness :
    (WaitEvents [97] [.conn (.response (some 0x2B)),
        .conn (.response (some 0x2B))]).count .lockBegin = 1 ∧
    (WaitEvents [97] [.conn (.response (some 0x2B)),
        .conn (.response (some 0x2B))]).count .unlockBegin = 1 ∧
    ∃ tail, WaitEvents [97] [.conn (.response (some 0x2B)),
        .conn (.response (some 0x2B))] =
      [.lockBegin, .lockEnd, .unlockBegin] ++ tail :=
  c8_wait_lock_then_unlock [97]
    [.conn (.response (some 0x2B)), .conn (.response (some 0x2B))] rfl
